import Mathlib

/-!
# Verification of the multiprof wrapper-execution core

A shallow embedding of `multiprof.go` (the wrapper-execution path and its
helpers) together with proofs about the behaviour claimed by the
specification.  Machine strings are modelled as Lean `String`s (lists of
characters); the process environment is an ordered association list, as
`os.Environ` presents it; the executable lookup (`exec.LookPath`), which
consults the filesystem, is passed in as an oracle receiving the `PATH`
value that is active at the moment of the call.
-/

set_option maxHeartbeats 1000000

namespace Multiprof

/-- The process environment: an ordered list of (name, value) pairs,
mirroring `os.Environ`. -/
def Env := List (Prod String String)

instance : DecidableEq Env := by
  unfold Env
  infer_instance

/-- `os.Getenv`-style lookup returning the first binding, `none` when the
variable is absent. -/
def lookupEnv : Env → String → Option String
  | [], _ => none
  | (k, v) :: rest, name => if k = name then some v else lookupEnv rest name

/-- `os.Getenv`: an absent variable reads as the empty string. -/
def getEnvD (e : Env) (name : String) : String := (lookupEnv e name).getD ""

/-- `os.Setenv`: overwrite the first binding in place, append when absent. -/
def setEnv : Env → String → String → Env
  | [], name, val => [(name, val)]
  | (k, v) :: rest, name, val =>
    if k = name then (k, val) :: rest else (k, v) :: setEnv rest name val

/-- `os.UserHomeDir` on Unix: the value of `HOME`, an error when it is
empty or unset. -/
def userHomeDir (e : Env) : Option String :=
  if getEnvD e "HOME" = "" then none else some (getEnvD e "HOME")

/-! ## Go `strings` helpers used by the program -/

/-- `strings.HasPrefix`. -/
def strStartsWith (s pre : String) : Bool := pre.data.isPrefixOf s.data

/-- `strings.HasSuffix`. -/
def strEndsWith (s suf : String) : Bool := suf.data.isSuffixOf s.data

/-- `strings.TrimSuffix`: drop `suf` from the end when present, otherwise
return the string unchanged. -/
def trimSuffix (s suf : String) : String :=
  if strEndsWith s suf then String.mk (s.data.take (s.data.length - suf.data.length)) else s

/-- Drop the first `n` characters of a string (Go slicing `s[n:]`). -/
def strDrop (s : String) (n : Nat) : String := String.mk (s.data.drop n)

/-- Core of `strings.Replace(s, old, new, -1)`: scan left to right,
replacing each non-overlapping occurrence of `old` (leftmost first).
Go treats an empty `old` specially (insertion at rune boundaries); the
program only ever calls this with `old` ending in `":"`, hence non-empty,
so the empty case returns `s` unchanged. -/
def replaceAllChars (s old new : List Char) : List Char :=
  if h : old = [] then s
  else
    match s with
    | [] => []
    | c :: rest =>
      if old.isPrefixOf (c :: rest) then new ++ replaceAllChars ((c :: rest).drop old.length) old new
      else c :: replaceAllChars rest old new
termination_by s.length
decreasing_by
  · simp only [List.length_drop, List.length_cons]
    have : 0 < old.length := List.length_pos.mpr h
    omega
  · simp

/-- `strings.ReplaceAll`. -/
def replaceAll (s old new : String) : String :=
  String.mk (replaceAllChars s.data old.data new.data)

/-! ## Go `path/filepath` helpers (Unix, separator `'/'`) -/

/-- Split a character list on `'/'`. -/
def splitOnSep : List Char → List (List Char)
  | [] => [[]]
  | '/' :: rest => [] :: splitOnSep rest
  | c :: rest =>
    match splitOnSep rest with
    | [] => [[c]]
    | g :: gs => (c :: g) :: gs

/-- One step of the lexical cleaning of `filepath.Clean`: push a path
component onto the stack of retained components (kept in reverse order). -/
def cleanStep (rooted : Bool) (stack : List (List Char)) (comp : List Char) : List (List Char) :=
  if comp = [] || comp = ['.'] then stack
  else if comp = ['.', '.'] then
    match stack with
    | [] => if rooted then [] else [['.', '.']]
    | top :: rest => if top = ['.', '.'] then comp :: top :: rest else rest
  else comp :: stack

/-- `filepath.Clean` (Unix): lexical shortest equivalent path — drops empty
and `.` components, resolves `..` against preceding components, keeps
leading `..`s of relative paths, and preserves rootedness. -/
def cleanPath (p : String) : String :=
  if p.data = [] then "."
  else
    let rooted := p.data.head? = some '/'
    let comps := ((splitOnSep p.data).foldl (cleanStep rooted) []).reverse
    if rooted then String.mk ('/' :: List.intercalate ['/'] comps)
    else if comps = [] then "." else String.mk (List.intercalate ['/'] comps)

/-- `filepath.Join` on two elements: skip empty elements, join with `'/'`,
then `Clean` the result. -/
def filepathJoin (a b : String) : String :=
  if a ≠ "" then cleanPath (a ++ "/" ++ b)
  else if b ≠ "" then cleanPath b
  else ""

/-- `filepath.Base` (Unix): strip trailing separators, then keep what
follows the last separator; `""` gives `"."` and all-separators give `"/"`. -/
def baseName (path : String) : String :=
  if path = "" then "."
  else
    let trimmed := (path.data.reverse.dropWhile (fun c => c = '/')).reverse
    let last := (trimmed.reverse.takeWhile (fun c => decide (c ≠ '/'))).reverse
    if last = [] then "/" else String.mk last

/-! ## Go `os.Expand` / `os.ExpandEnv` -/

/-- `isShellSpecialVar` from `os`: one-character shell variable names. -/
def isShellSpecialVar (c : Char) : Bool :=
  c = '*' || c = '#' || c = '$' || c = '@' || c = '!' || c = '?' || c = '-' ||
    ('0' ≤ c && c ≤ '9')

/-- `isAlphaNum` from `os`: characters of a plain variable name. -/
def isAlphaNumChar (c : Char) : Bool :=
  c = '_' || ('a' ≤ c && c ≤ 'z') || ('A' ≤ c && c ≤ 'Z') || ('0' ≤ c && c ≤ '9')

/-- Index of the first `'}'` in the list, if any. -/
def braceScan : List Char → Nat → Option Nat
  | [], _ => none
  | c :: rest, i => if c = '}' then some i else braceScan rest (i + 1)

/-- `getShellName` from `os`: parse the variable reference that follows a
`'$'`, returning the name together with the number of characters consumed.
An empty name with positive width signals invalid syntax to be eaten; an
empty name with width 0 leaves the `'$'` literal. -/
def getShellName (s : List Char) : Prod (List Char) Nat :=
  match s with
  | [] => ([], 0)
  | '{' :: rest =>
    match rest with
    | c1 :: '}' :: _ =>
      if isShellSpecialVar c1 then ([c1], 3)
      else
        match braceScan rest 0 with
        | some 0 => ([], 2)
        | some k => (rest.take k, k + 2)
        | none => ([], 1)
    | _ =>
      match braceScan rest 0 with
      | some 0 => ([], 2)
      | some k => (rest.take k, k + 2)
      | none => ([], 1)
  | c :: _ =>
    if isShellSpecialVar c then ([c], 1)
    else (s.takeWhile isAlphaNumChar, (s.takeWhile isAlphaNumChar).length)

/-- `os.Expand`: substitute `$name` / `${name}` references using `mapping`.
A trailing `'$'` stays literal, invalid `${` syntax is eaten, a `'$'`
followed by no name character stays literal. -/
def expandChars (mapping : String → String) : List Char → List Char
  | [] => []
  | c :: rest =>
    if c = '$' then
      if rest.isEmpty then ['$']
      else
        let p := getShellName rest
        if p.1 = [] && decide (0 < p.2) then expandChars mapping (rest.drop p.2)
        else if p.1 = [] then '$' :: expandChars mapping rest
        else (mapping (String.mk p.1)).data ++ expandChars mapping (rest.drop p.2)
    else c :: expandChars mapping rest
termination_by cs => cs.length
decreasing_by
  · simp only [List.length_drop, List.length_cons]; omega
  · simp
  · simp only [List.length_drop, List.length_cons]; omega
  · simp

/-- `os.ExpandEnv`: `os.Expand` with the environment as mapping; an unset
variable reads as the empty string. -/
def osExpandEnv (e : Env) (s : String) : String :=
  String.mk (expandChars (fun name => getEnvD e name) s.data)

/-! ## `expandPath` and derived directories (from `multiprof.go`) -/

/-- `expandPath` from `multiprof.go`: when the string starts with `~` and
the user home lookup succeeds, `filepath.Join` the home directory with the
remainder; then `os.ExpandEnv` the result. -/
def expandPath (e : Env) (path : String) : String :=
  osExpandEnv e
    (if strStartsWith path "~" then
      match userHomeDir e with
      | some homeDir => filepathJoin homeDir (strDrop path 1)
      | none => path
     else path)

/-- The `wrapperDirName` constant. -/
def wrapperDirName : String := ".local/bin/multiprof"

/-- `getWrapperDir`: `expandPath(filepath.Join("~/", wrapperDirName))`. -/
def getWrapperDir (e : Env) : String :=
  expandPath e (filepathJoin "~/" wrapperDirName)

/-! ## The `gobwas/glob` pattern matcher, as invoked by the program

The program calls `glob.Compile(pattern)` with NO separator characters.
In that library, `*` matches any sequence of non-separator characters and
`?` any single non-separator character; with an empty separator set both
therefore match across `/`, and `**` always matches any sequence.  A
pattern is a sequence of literal characters, `*`, `**`, `?`, `[...]`
character classes (with `!` negation and `lo-hi` ranges) and `{...}`
alternation; `\` escapes the following character.  Unclosed `[`, `{` or a
trailing `\` are compile errors, in which case `glob.Compile` returns a
`nil` matcher together with the error.  Alternation is modelled by
distributing it at compile time: a compiled glob is a disjunction of
alternative node sequences. -/

/-- One entry of a `[...]` character class: a single character or a range. -/
inductive ClassItem where
  | ch : Char → ClassItem
  | range : Char → Char → ClassItem
deriving DecidableEq

/-- One node of a compiled glob alternative. -/
inductive GlobNode where
  | lit : Char → GlobNode
  | single : GlobNode
  | any : GlobNode
  | super : GlobNode
  | charClass : Bool → List ClassItem → GlobNode
deriving DecidableEq

/-- Parse the items of a `[...]` class up to the closing `]`; `none` when
the class is unclosed. -/
def parseClassItems : List Char → Option (Prod (List ClassItem) (List Char))
  | [] => none
  | ']' :: rest => some ([], rest)
  | c :: '-' :: d :: rest =>
    if d = ']' then some ([ClassItem.ch c, ClassItem.ch '-'], rest)
    else
      match parseClassItems rest with
      | none => none
      | some (items, rem) => some (ClassItem.range c d :: items, rem)
  | c :: rest =>
    match parseClassItems rest with
    | none => none
    | some (items, rem) => some (ClassItem.ch c :: items, rem)

/-- Parse a `[...]` class body (after the opening `[`), with optional
leading `!` negation. -/
def parseClassBody (cs : List Char) : Option (Prod GlobNode (List Char)) :=
  match cs with
  | '!' :: rest =>
    match parseClassItems rest with
    | none => none
    | some (items, rem) => some (GlobNode.charClass true items, rem)
  | _ =>
    match parseClassItems cs with
    | none => none
    | some (items, rem) => some (GlobNode.charClass false items, rem)

/-- Prepend a node to every alternative of a parse result. -/
def consNodeResult (n : GlobNode) :
    Option (Prod (List (List GlobNode)) (List Char)) →
    Option (Prod (List (List GlobNode)) (List Char))
  | none => none
  | some (alts, rem) => some (alts.map (fun a => n :: a), rem)

mutual

/-- Fuel-indexed recursive-descent parse of a glob pattern into its
distributed alternatives.  When `inBrace` is set, parsing stops at a
top-level `,` or `}` (left in the remainder); outside braces those
characters are literal.  `none` signals a compile error. -/
def parseSeq : Nat → Bool → List Char → Option (Prod (List (List GlobNode)) (List Char))
  | 0, _, _ => none
  | fuel + 1, inBrace, cs =>
    match cs with
    | [] => if inBrace then none else some ([[]], [])
    | ',' :: rest =>
      if inBrace then some ([[]], ',' :: rest)
      else consNodeResult (GlobNode.lit ',') (parseSeq fuel inBrace rest)
    | '}' :: rest =>
      if inBrace then some ([[]], '}' :: rest)
      else consNodeResult (GlobNode.lit '}') (parseSeq fuel inBrace rest)
    | '{' :: rest =>
      match parseAlts fuel rest with
      | none => none
      | some (branches, rest2) =>
        match parseSeq fuel inBrace rest2 with
        | none => none
        | some (tails, rem) =>
          some (branches.flatMap (fun b => tails.map (fun t => b ++ t)), rem)
    | '[' :: rest =>
      match parseClassBody rest with
      | none => none
      | some (node, rest2) => consNodeResult node (parseSeq fuel inBrace rest2)
    | '\\' :: [] => none
    | '\\' :: c :: rest => consNodeResult (GlobNode.lit c) (parseSeq fuel inBrace rest)
    | '*' :: '*' :: rest => consNodeResult GlobNode.super (parseSeq fuel inBrace rest)
    | '*' :: rest => consNodeResult GlobNode.any (parseSeq fuel inBrace rest)
    | '?' :: rest => consNodeResult GlobNode.single (parseSeq fuel inBrace rest)
    | c :: rest => consNodeResult (GlobNode.lit c) (parseSeq fuel inBrace rest)

/-- Parse the comma-separated alternatives of a `{...}` up to the closing
`}`; `none` when the brace is unclosed. -/
def parseAlts : Nat → List Char → Option (Prod (List (List GlobNode)) (List Char))
  | 0, _ => none
  | fuel + 1, cs =>
    match parseSeq fuel true cs with
    | none => none
    | some (dnf, rem) =>
      match rem with
      | ',' :: rest =>
        match parseAlts fuel rest with
        | none => none
        | some (more, rem2) => some (dnf ++ more, rem2)
      | '}' :: rest => some (dnf, rest)
      | _ => none

end

/-- `glob.Compile(pattern)` with no separators: `some` compiled
alternatives, or `none` for a malformed pattern (the library then returns
a `nil` matcher together with the error). -/
def globCompile (pattern : String) : Option (List (List GlobNode)) :=
  match parseSeq (pattern.data.length * 2 + 2) false pattern.data with
  | none => none
  | some (alts, []) => some alts
  | some (_, _ :: _) => none

/-- Whether a character is matched by one class item. -/
def classItemMatches (c : Char) : ClassItem → Bool
  | ClassItem.ch d => c = d
  | ClassItem.range lo hi => lo ≤ c && c ≤ hi

/-- Whether a character is matched by a class item list. -/
def inClass (items : List ClassItem) (c : Char) : Bool :=
  items.any (classItemMatches c)

/-- Match one alternative's node sequence against a character list.  With
no separators configured, `*`, like `**`, matches any sequence (including
`/`), and `?` matches exactly one character. -/
def globMatch : List GlobNode → List Char → Bool
  | [], [] => true
  | [], _ :: _ => false
  | GlobNode.lit _ :: _, [] => false
  | GlobNode.lit c0 :: rest, c :: s => (c = c0) && globMatch rest s
  | GlobNode.single :: _, [] => false
  | GlobNode.single :: rest, _ :: s => globMatch rest s
  | GlobNode.charClass _ _ :: _, [] => false
  | GlobNode.charClass neg items :: rest, c :: s => (inClass items c != neg) && globMatch rest s
  | GlobNode.any :: rest, [] => globMatch rest []
  | GlobNode.any :: rest, c :: s =>
    globMatch rest (c :: s) || globMatch (GlobNode.any :: rest) s
  | GlobNode.super :: rest, [] => globMatch rest []
  | GlobNode.super :: rest, c :: s =>
    globMatch rest (c :: s) || globMatch (GlobNode.super :: rest) s
termination_by g s => (s.length, g.length)

/-- `g.Match(s)` for a compiled glob: some alternative matches. -/
def globsMatch (g : List (List GlobNode)) (s : String) : Bool :=
  g.any (fun alt => globMatch alt s.data)

/-! ## Configuration data model and the wrapper-execution path -/

/-- A configuration rule: `{ pattern, home }`. -/
structure Rule where
  pattern : String
  home : String
deriving DecidableEq

/-- Global settings: the wrapper-name suffix. -/
structure Settings where
  suffix : String
deriving DecidableEq

/-- The loaded configuration. -/
structure Config where
  settings : Settings
  rules : List Rule
deriving DecidableEq

/-- Whether one rule matches the two candidate forms of the expanded
working directory: compile the expanded pattern, then test both forms.
`none` models the nil matcher obtained when compilation fails (whose
`Match` call panics). -/
def ruleMatches (e : Env) (c1 c2 : String) (r : Rule) : Option Bool :=
  match globCompile (expandPath e r.pattern) with
  | none => none
  | some g => some (globsMatch g c1 || globsMatch g c2)

/-- The matching loop of `runWrapper`: scan the rules in configuration
order; on the first match stop with the rule's expanded home.  `none`:
the loop panicked on a rule whose pattern failed to compile (the error
from `glob.Compile` is discarded and `Match` is invoked on a nil `Glob`);
`some none`: no rule matched; `some (some h)`: first match, new home `h`. -/
def findHome (e : Env) (c1 c2 : String) : List Rule → Option (Option String)
  | [] => some none
  | r :: rs =>
    match globCompile (expandPath e r.pattern) with
    | none => none
    | some g =>
      if globsMatch g c1 || globsMatch g c2 then some (some (expandPath e r.home))
      else findHome e c1 c2 rs

/-- The `safePath` construction: the original `PATH` with every literal
occurrence of `wrapperDir ++ ":"` removed. -/
def safePathOf (originalPath wrapperDir : String) : String :=
  replaceAll originalPath (wrapperDir ++ ":") ""

/-- Result of one wrapper invocation.  `exec` carries the resolved target
path, the argv passed through, and the environment given to the
process-replacing exec; `noMatch` carries the working directory of the
diagnostic; `notFound` carries the searched command name and the final
environment; `panicked` is the runtime abort on a nil glob. -/
inductive WrapperOutcome where
  | panicked : WrapperOutcome
  | noMatch : String → WrapperOutcome
  | notFound : String → Env → WrapperOutcome
  | exec : String → List String → Env → WrapperOutcome
deriving DecidableEq

/-- The tail of `runWrapper` after a rule has matched and `HOME` has been
overwritten (`e1` is that updated environment): derive the target command
name, install the safe `PATH`, look the command up (the oracle reads the
`PATH` value active at the call), restore the original `PATH`, then fail
or exec. -/
def execPhase (lookPath : String → String → Option String) (e1 : Env)
    (args : List String) (suffix : String) : WrapperOutcome :=
  let wrapperName := baseName (args.headD "")
  let targetCmdName := trimSuffix wrapperName suffix
  let originalPath := getEnvD e1 "PATH"
  let wrapperDir := getWrapperDir e1
  let safePath := safePathOf originalPath wrapperDir
  let e2 := setEnv e1 "PATH" safePath
  let res := lookPath (getEnvD e2 "PATH") targetCmdName
  let e3 := setEnv e2 "PATH" originalPath
  match res with
  | none => WrapperOutcome.notFound targetCmdName e3
  | some targetCmdPath => WrapperOutcome.exec targetCmdPath args e3

/-- `runWrapper`: expand the working directory, build the two candidate
forms, scan the rules; on no match fail with the diagnostic; on a match
set `HOME` to the expanded rule home and continue with `execPhase`. -/
def runWrapper (lookPath : String → String → Option String) (e : Env)
    (args : List String) (cwd : String) (cfg : Config) : WrapperOutcome :=
  let expandedCwd := expandPath e cwd
  let expandedCwdWithSlash := expandedCwd ++ "/"
  match findHome e expandedCwd expandedCwdWithSlash cfg.rules with
  | none => WrapperOutcome.panicked
  | some none => WrapperOutcome.noMatch cwd
  | some (some newHome) =>
    execPhase lookPath (setEnv e "HOME" newHome) args cfg.settings.suffix

/-- Process exit status of an outcome: both failure exits call
`os.Exit(1)`, a Go panic aborts with status 2, and a successful `exec`
never returns. -/
def exitCode : WrapperOutcome → Option Nat
  | WrapperOutcome.panicked => some 2
  | WrapperOutcome.noMatch _ => some 1
  | WrapperOutcome.notFound _ _ => some 1
  | WrapperOutcome.exec _ _ _ => none

/-- The two diagnostic lines printed on an unmatched directory, the second
suggesting the exact `add-rule` invocation built from the current
directory. -/
def noMatchDiagnostic (cwd : String) : List String :=
  ["[FAIL] No multiprof Rule matched the current directory: " ++ cwd,
   "[INFO] To add a Rule, run: multiprof add-rule --pattern \"" ++ cwd ++
     "/**\" --home \"/path/to/home\""]

/-- Diagnostics emitted for each outcome. -/
def outcomeDiagnostics : WrapperOutcome → List String
  | WrapperOutcome.panicked =>
    ["panic: runtime error: invalid memory address or nil pointer dereference"]
  | WrapperOutcome.noMatch cwd => noMatchDiagnostic cwd
  | WrapperOutcome.notFound cmd _ =>
    ["[FAIL] Could not find target command '" ++ cmd ++ "' in the system PATH"]
  | WrapperOutcome.exec _ _ _ => []

/-- One run of the matching loop as a step-by-step relation, mirroring
`findHome`: used to state that matching has no hidden nondeterminism. -/
inductive FindHomeRel (e : Env) (c1 c2 : String) : List Rule → Option (Option String) → Prop where
  | nil : FindHomeRel e c1 c2 [] (some none)
  | panicRule (r : Rule) (rs : List Rule) :
      globCompile (expandPath e r.pattern) = none →
      FindHomeRel e c1 c2 (r :: rs) none
  | matchRule (r : Rule) (rs : List Rule) (g : List (List GlobNode)) :
      globCompile (expandPath e r.pattern) = some g →
      (globsMatch g c1 || globsMatch g c2) = true →
      FindHomeRel e c1 c2 (r :: rs) (some (some (expandPath e r.home)))
  | skipRule (r : Rule) (rs : List Rule) (g : List (List GlobNode)) (o : Option (Option String)) :
      globCompile (expandPath e r.pattern) = some g →
      (globsMatch g c1 || globsMatch g c2) = false →
      FindHomeRel e c1 c2 rs o →
      FindHomeRel e c1 c2 (r :: rs) o

/-! ## Supporting lemmas -/

theorem strMk_data (s : String) : String.mk s.data = s := rfl

theorem lookupEnv_setEnv_self (e : Env) (k v : String) :
    lookupEnv (setEnv e k v) k = some v := by
  induction e with
  | nil => simp [setEnv, lookupEnv]
  | cons p rest ih =>
    obtain ⟨k0, v0⟩ := p
    by_cases h : k0 = k
    · simp [setEnv, lookupEnv, h]
    · simp [setEnv, lookupEnv, h, ih]

theorem lookupEnv_setEnv_ne (e : Env) (k v k' : String) (h : k' ≠ k) :
    lookupEnv (setEnv e k v) k' = lookupEnv e k' := by
  induction e with
  | nil => simp [setEnv, lookupEnv, Ne.symm h]
  | cons p rest ih =>
    obtain ⟨k0, v0⟩ := p
    by_cases h0 : k0 = k
    · subst h0
      simp [setEnv, lookupEnv, Ne.symm h]
    · by_cases h1 : k0 = k'
      · subst h1
        simp [setEnv, lookupEnv, h0]
      · simp [setEnv, lookupEnv, h0, h1, ih]

theorem setEnv_setEnv_self (e : Env) (k v w : String) :
    setEnv (setEnv e k v) k w = setEnv e k w := by
  induction e with
  | nil => simp [setEnv]
  | cons p rest ih =>
    obtain ⟨k0, v0⟩ := p
    by_cases h : k0 = k
    · simp [setEnv, h]
    · simp [setEnv, h, ih]

theorem setEnv_of_lookup (e : Env) (k v : String) (h : lookupEnv e k = some v) :
    setEnv e k v = e := by
  induction e with
  | nil => simp [lookupEnv] at h
  | cons p rest ih =>
    obtain ⟨k0, v0⟩ := p
    by_cases h0 : k0 = k
    · subst h0
      simp [lookupEnv] at h
      simp [setEnv, h]
    · simp [lookupEnv, h0] at h
      simp [setEnv, h0, ih h]

theorem globMatch_any_all (s : List Char) : globMatch [GlobNode.any] s = true := by
  induction s with
  | nil => simp [globMatch]
  | cons c rest ih => simp [globMatch, ih]

theorem globMatch_super_all (s : List Char) : globMatch [GlobNode.super] s = true := by
  induction s with
  | nil => simp [globMatch]
  | cons c rest ih => simp [globMatch, ih]

theorem expandChars_no_dollar (f : String → String) (cs : List Char)
    (h : '$' ∉ cs) : expandChars f cs = cs := by
  induction cs with
  | nil => simp [expandChars]
  | cons c rest ih =>
    have hc : c ≠ '$' := by
      intro hc
      exact h (hc ▸ List.mem_cons_self c rest)
    have hrest : '$' ∉ rest := fun hm => h (List.mem_cons_of_mem c hm)
    rw [expandChars, if_neg hc, ih hrest]

theorem osExpandEnv_no_dollar (e : Env) (s : String) (h : '$' ∉ s.data) :
    osExpandEnv e s = s := by
  unfold osExpandEnv
  rw [expandChars_no_dollar _ _ h, strMk_data]

/-- Written after the spec's words for the safe-PATH construction: the
input with every literal occurrence of the needle removed — a plain
left-to-right scan deleting each (leftmost, non-overlapping) occurrence,
not a directory-aware split/filter.  Used to state that the program's
construction refines the spec's description. -/
def specStripAll (s needle : List Char) : List Char :=
  if needle = [] then s
  else
    match s with
    | [] => []
    | c :: rest =>
      if needle.isPrefixOf (c :: rest) then specStripAll ((c :: rest).drop needle.length) needle
      else c :: specStripAll rest needle
termination_by s.length
decreasing_by
  · simp only [List.length_drop, List.length_cons]
    rename_i hne _
    have : 0 < needle.length := List.length_pos.mpr hne
    omega
  · simp

theorem replaceAllChars_nil_eq_spec (s old : List Char) :
    replaceAllChars s old [] = specStripAll s old := by
  by_cases h : old = []
  · unfold replaceAllChars specStripAll
    simp [h]
  · match s with
    | [] =>
      unfold replaceAllChars specStripAll
      simp [h]
    | c :: rest =>
      unfold replaceAllChars specStripAll
      simp only [h, ite_false, dite_false]
      by_cases hp : old.isPrefixOf (c :: rest) = true
      · rw [if_pos hp, if_pos hp, List.nil_append]
        exact replaceAllChars_nil_eq_spec ((c :: rest).drop old.length) old
      · rw [if_neg hp, if_neg hp, replaceAllChars_nil_eq_spec rest old]
termination_by s.length
decreasing_by
  · simp only [List.length_drop, List.length_cons]
    have : 0 < old.length := List.length_pos.mpr h
    omega
  · simp

theorem replaceAllChars_of_no_occurrence (s old new : List Char) (hold : old ≠ [])
    (h : ¬ old <:+: s) : replaceAllChars s old new = s := by
  induction s with
  | nil => unfold replaceAllChars; simp [hold]
  | cons c rest ih =>
    have hpre : old.isPrefixOf (c :: rest) = false := by
      by_contra hb
      have : old.isPrefixOf (c :: rest) = true := by
        revert hb
        cases old.isPrefixOf (c :: rest) <;> simp
      exact h (List.IsPrefix.isInfix (List.isPrefixOf_iff_prefix.mp this))
    have hrest : ¬ old <:+: rest := fun hm => h (List.infix_cons hm)
    unfold replaceAllChars
    simp only [hold, hpre, ite_false, dite_false, Bool.false_eq_true, if_false]
    rw [ih hrest]

theorem userHomeDir_setEnv_home (e : Env) (h : String) (hne : h ≠ "") :
    userHomeDir (setEnv e "HOME" h) = some h := by
  unfold userHomeDir getEnvD
  rw [lookupEnv_setEnv_self]
  simp [hne]

theorem findHome_cons_match (e : Env) (c1 c2 : String) (r : Rule) (rs : List Rule)
    (hm : ruleMatches e c1 c2 r = some true) :
    findHome e c1 c2 (r :: rs) = some (some (expandPath e r.home)) := by
  unfold ruleMatches at hm
  unfold findHome
  cases hg : globCompile (expandPath e r.pattern) with
  | none => rw [hg] at hm; cases hm
  | some g =>
    rw [hg] at hm
    simp only [Option.some_inj] at hm
    simp [hm]

theorem findHome_cons_skip (e : Env) (c1 c2 : String) (r : Rule) (rs : List Rule)
    (hm : ruleMatches e c1 c2 r = some false) :
    findHome e c1 c2 (r :: rs) = findHome e c1 c2 rs := by
  unfold ruleMatches at hm
  cases hg : globCompile (expandPath e r.pattern) with
  | none => rw [hg] at hm; cases hm
  | some g =>
    rw [hg] at hm
    simp only [Option.some_inj] at hm
    conv_lhs => rw [findHome]
    rw [hg]
    simp [hm]

theorem getEnvD_setEnv_self (e : Env) (k v : String) : getEnvD (setEnv e k v) k = v := by
  unfold getEnvD
  rw [lookupEnv_setEnv_self]
  rfl

/-- `execPhase` with the lookup's `PATH` argument written out: the oracle
is consulted exactly once, on the safe `PATH` and the suffix-stripped
command name, and the `PATH` binding is restored around it. -/
theorem execPhase_eq (lp : String → String → Option String) (e1 : Env)
    (args : List String) (suffix : String) :
    execPhase lp e1 args suffix =
      match lp (safePathOf (getEnvD e1 "PATH") (getWrapperDir e1))
              (trimSuffix (baseName (args.headD "")) suffix) with
      | none =>
        WrapperOutcome.notFound (trimSuffix (baseName (args.headD "")) suffix)
          (setEnv (setEnv e1 "PATH" (safePathOf (getEnvD e1 "PATH") (getWrapperDir e1)))
            "PATH" (getEnvD e1 "PATH"))
      | some targetCmdPath =>
        WrapperOutcome.exec targetCmdPath args
          (setEnv (setEnv e1 "PATH" (safePathOf (getEnvD e1 "PATH") (getWrapperDir e1)))
            "PATH" (getEnvD e1 "PATH")) := by
  simp only [execPhase]
  rw [getEnvD_setEnv_self]

/-- `runWrapper` with the matching phase's result exposed. -/
theorem runWrapper_eq (lp : String → String → Option String) (e : Env)
    (args : List String) (cwd : String) (cfg : Config) :
    runWrapper lp e args cwd cfg =
      match findHome e (expandPath e cwd) (expandPath e cwd ++ "/") cfg.rules with
      | none => WrapperOutcome.panicked
      | some none => WrapperOutcome.noMatch cwd
      | some (some newHome) =>
        execPhase lp (setEnv e "HOME" newHome) args cfg.settings.suffix := by
  unfold runWrapper
  rfl

theorem execPhase_none (lp : String → String → Option String) (e1 : Env)
    (args : List String) (suffix : String)
    (hl : lp (safePathOf (getEnvD e1 "PATH") (getWrapperDir e1))
        (trimSuffix (baseName (args.headD "")) suffix) = none) :
    execPhase lp e1 args suffix =
      WrapperOutcome.notFound (trimSuffix (baseName (args.headD "")) suffix)
        (setEnv (setEnv e1 "PATH" (safePathOf (getEnvD e1 "PATH") (getWrapperDir e1)))
          "PATH" (getEnvD e1 "PATH")) := by
  rw [execPhase_eq, hl]

theorem execPhase_some (lp : String → String → Option String) (e1 : Env)
    (args : List String) (suffix : String) (tp : String)
    (hl : lp (safePathOf (getEnvD e1 "PATH") (getWrapperDir e1))
        (trimSuffix (baseName (args.headD "")) suffix) = some tp) :
    execPhase lp e1 args suffix =
      WrapperOutcome.exec tp args
        (setEnv (setEnv e1 "PATH" (safePathOf (getEnvD e1 "PATH") (getWrapperDir e1)))
          "PATH" (getEnvD e1 "PATH")) := by
  rw [execPhase_eq, hl]

/-! ## Claim theorems -/

/-- C3: for every original `PATH` string and wrapper directory string, the
safe `PATH` equals the original `PATH` with every literal occurrence of
the substring `wrapperDir ++ ":"` removed (a plain substring removal,
stated as a refinement of the spec-side `specStripAll`); in particular
`PATH "/wrap:/usr/bin"` with wrapper directory `"/wrap"` yields
`"/usr/bin"`, and a wrapper directory at the end of `PATH` with no
following colon — more generally, any `PATH` without an occurrence of the
colon-terminated substring — is left unchanged. -/
theorem C3_safe_path_strip (s w : String) :
    safePathOf s w = String.mk (specStripAll s.data (w ++ ":").data) ∧
    (¬ (w ++ ":").data <:+: s.data → safePathOf s w = s) ∧
    safePathOf "/wrap:/usr/bin" "/wrap" = "/usr/bin" ∧
    safePathOf "/usr/bin:/wrap" "/wrap" = "/usr/bin:/wrap" := by
  refine ⟨?_, ?_, ?_, ?_⟩
  · unfold safePathOf replaceAll
    rw [replaceAllChars_nil_eq_spec]
  · intro hinf
    have hne : (w ++ ":").data ≠ [] := by
      rw [String.data_append]
      simp
    unfold safePathOf replaceAll
    rw [replaceAllChars_of_no_occurrence _ _ _ hne hinf, strMk_data]
  · simp [safePathOf, replaceAll, replaceAllChars]
  · simp [safePathOf, replaceAll, replaceAllChars]

/-- Witness for C3 at a concrete input: the wrapper directory sits at the
end of `PATH` with no following colon, so the colon-terminated needle does
not occur and the `PATH` is left unchanged. -/
theorem C3_witness :
    (¬ ("/wrap" ++ ":").data <:+: ("/usr/bin:/wrap" : String).data) ∧
    safePathOf "/usr/bin:/wrap" "/wrap" = "/usr/bin:/wrap" :=
  ⟨by decide, (C3_safe_path_strip "/usr/bin:/wrap" "/wrap").2.1 (by decide)⟩

/-- C6: the target command name is the wrapper name with the configured
suffix removed from the end exactly when the name ends with that suffix,
and the name unchanged otherwise; with the empty suffix every name passes
through unchanged; `"aws_w"` with suffix `"_w"` gives `"aws"`, `"aws"`
with suffix `"_w"` stays `"aws"`. -/
theorem C6_target_name (pre suf name : String) :
    trimSuffix (pre ++ suf) suf = pre ∧
    (strEndsWith name suf = false → trimSuffix name suf = name) ∧
    trimSuffix name "" = name ∧
    trimSuffix "aws_w" "_w" = "aws" ∧
    trimSuffix "aws" "_w" = "aws" := by
  refine ⟨?_, ?_, ?_, ?_, ?_⟩
  · have hsuf : strEndsWith (pre ++ suf) suf = true := by
      unfold strEndsWith
      exact List.isSuffixOf_iff_suffix.mpr ⟨pre.data, (String.data_append pre suf).symm⟩
    unfold trimSuffix
    rw [hsuf, if_pos rfl, String.data_append, List.length_append, Nat.add_sub_cancel,
      List.take_left]
  · intro hno
    unfold trimSuffix
    rw [hno]
    simp
  · have hsuf : strEndsWith name "" = true := by
      unfold strEndsWith
      exact List.isSuffixOf_iff_suffix.mpr List.nil_suffix
    unfold trimSuffix
    rw [hsuf, if_pos rfl]
    show String.mk (name.data.take (name.data.length - 0)) = name
    rw [Nat.sub_zero, List.take_length, strMk_data]
  · decide
  · decide

/-- Witness for C6 at a concrete input: `"aws"` does not end with `"_w"`
and passes through unchanged. -/
theorem C6_witness :
    strEndsWith "aws" "_w" = false ∧ trimSuffix "aws" "_w" = "aws" :=
  ⟨by decide, (C6_target_name "aws" "_w" "aws").2.1 (by decide)⟩

/-- C1 (counterexample): the claim quantifies over every rule list, but
when a rule preceding the first matching rule has a pattern that fails to
compile, the scan panics on the nil matcher instead of returning the
matching later rule: here the rule at index 1 matches the directory `/x`,
yet the matcher returns nothing at all. -/
theorem C1_counterexample :
    ruleMatches [] "/x" "/x/" ⟨"/x/**", "/h2"⟩ = some true ∧
    findHome [] "/x" "/x/" [⟨"[", "/h1"⟩, ⟨"/x/**", "/h2"⟩] = none ∧
    findHome [] "/x" "/x/" [⟨"[", "/h1"⟩, ⟨"/x/**", "/h2"⟩] ≠ some (some "/h2") := by
  refine ⟨?_, ?_, ?_⟩
  · simp [ruleMatches, expandPath, osExpandEnv, expandChars, getShellName, braceScan,
      isShellSpecialVar, isAlphaNumChar, strStartsWith, strDrop, userHomeDir, getEnvD, lookupEnv,
      filepathJoin, cleanPath, splitOnSep, cleanStep, globCompile, parseSeq, parseAlts,
      parseClassBody, parseClassItems, consNodeResult, globsMatch, globMatch, inClass,
      classItemMatches]
  · simp [findHome, expandPath, osExpandEnv, expandChars, getShellName, braceScan,
      isShellSpecialVar, isAlphaNumChar, strStartsWith, strDrop, userHomeDir, getEnvD, lookupEnv,
      filepathJoin, cleanPath, splitOnSep, cleanStep, globCompile, parseSeq, parseAlts,
      parseClassBody, parseClassItems, consNodeResult, globsMatch, globMatch, inClass,
      classItemMatches]
  · simp [findHome, expandPath, osExpandEnv, expandChars, getShellName, braceScan,
      isShellSpecialVar, isAlphaNumChar, strStartsWith, strDrop, userHomeDir, getEnvD, lookupEnv,
      filepathJoin, cleanPath, splitOnSep, cleanStep, globCompile, parseSeq, parseAlts,
      parseClassBody, parseClassItems, consNodeResult, globsMatch, globMatch, inClass,
      classItemMatches]

/-- C1 (amended): provided every rule before the match point compiles and
does not match, the matcher returns the expanded home of the rule at that
earliest matching index, and the rules after that index are never
examined — replacing them by any other list leaves the result unchanged. -/
theorem C1_first_match_wins (e : Env) (c1 c2 : String) (rs1 : List Rule) (r : Rule)
    (rs2 : List Rule)
    (hbefore : ∀ r' ∈ rs1, ruleMatches e c1 c2 r' = some false)
    (hr : ruleMatches e c1 c2 r = some true) :
    findHome e c1 c2 (rs1 ++ r :: rs2) = some (some (expandPath e r.home)) ∧
    ∀ rs2' : List Rule,
      findHome e c1 c2 (rs1 ++ r :: rs2') = findHome e c1 c2 (rs1 ++ r :: rs2) := by
  have key : ∀ l : List Rule, (∀ r' ∈ l, ruleMatches e c1 c2 r' = some false) →
      ∀ tail : List Rule,
        findHome e c1 c2 (l ++ r :: tail) = some (some (expandPath e r.home)) := by
    intro l
    induction l with
    | nil =>
      intro _ tail
      simpa using findHome_cons_match e c1 c2 r tail hr
    | cons r0 rest ih =>
      intro hb tail
      rw [List.cons_append, findHome_cons_skip e c1 c2 r0 _ (hb r0 (List.mem_cons_self r0 rest))]
      exact ih (fun r' hm => hb r' (List.mem_cons_of_mem r0 hm)) tail
  exact ⟨key rs1 hbefore rs2,
    fun rs2' => (key rs1 hbefore rs2').trans (key rs1 hbefore rs2).symm⟩

/-- Witness for C1 (amended) at a concrete input: a non-matching rule,
then the matching rule, then a later more specific rule; the first match
wins. -/
theorem C1_witness :
    findHome [] "/x" "/x/" [⟨"/zzz/**", "/h0"⟩, ⟨"/x/**", "/h2"⟩, ⟨"/x/y/**", "/h3"⟩]
      = some (some "/h2") := by
  have h := (C1_first_match_wins [] "/x" "/x/" [⟨"/zzz/**", "/h0"⟩] ⟨"/x/**", "/h2"⟩
    [⟨"/x/y/**", "/h3"⟩]
    (by
      intro r' hm
      simp only [List.mem_singleton] at hm
      subst hm
      simp [ruleMatches, expandPath, osExpandEnv, expandChars, getShellName, braceScan,
        isShellSpecialVar, isAlphaNumChar, strStartsWith, strDrop, userHomeDir, getEnvD,
        lookupEnv, filepathJoin, cleanPath, splitOnSep, cleanStep, globCompile, parseSeq,
        parseAlts, parseClassBody, parseClassItems, consNodeResult, globsMatch, globMatch,
        inClass, classItemMatches])
    (by
      simp [ruleMatches, expandPath, osExpandEnv, expandChars, getShellName, braceScan,
        isShellSpecialVar, isAlphaNumChar, strStartsWith, strDrop, userHomeDir, getEnvD,
        lookupEnv, filepathJoin, cleanPath, splitOnSep, cleanStep, globCompile, parseSeq,
        parseAlts, parseClassBody, parseClassItems, consNodeResult, globsMatch, globMatch,
        inClass, classItemMatches])).1
  rw [show expandPath [] "/h2" = "/h2" by
    simp [expandPath, osExpandEnv, expandChars, getShellName, strStartsWith, strDrop,
      userHomeDir, getEnvD, lookupEnv, isShellSpecialVar, isAlphaNumChar]] at h
  simpa using h

/-- C2: the code at the failing input of the claim: `glob.Compile` is
invoked with no separator list, so a compiled `*` matches any run of
characters including `/` (third conjunct: it accepts every suffix), and
the rule with pattern `/a/*` matches the directory `/a/c/d`, which the
claim — and the repository readme — say it must not.  The remaining
conjuncts record the pattern examples on which the code and the claim do
agree. -/
theorem C2_star_crosses_separators :
    ruleMatches [] "/a/c/d" "/a/c/d/" ⟨"/a/*", "/h"⟩ = some true ∧
    globCompile "/a/*"
      = some [[GlobNode.lit '/', GlobNode.lit 'a', GlobNode.lit '/', GlobNode.any]] ∧
    (∀ cs : List Char,
      globMatch [GlobNode.lit '/', GlobNode.lit 'a', GlobNode.lit '/', GlobNode.any]
        (['/', 'a', '/'] ++ cs) = true) ∧
    ruleMatches [] "/a/c" "/a/c/" ⟨"/a/*", "/h"⟩ = some true ∧
    ruleMatches [] "/a/b" "/a/b/" ⟨"/a/b/**", "/h"⟩ = some true ∧
    ruleMatches [] "/a/b/c/d" "/a/b/c/d/" ⟨"/a/b/**", "/h"⟩ = some true ∧
    ruleMatches [] "/a/bc" "/a/bc/" ⟨"/a/b/**", "/h"⟩ = some false := by
  refine ⟨?_, ?_, ?_, ?_, ?_, ?_, ?_⟩
  case refine_3 =>
    intro cs
    simp only [List.cons_append, List.nil_append]
    simp [globMatch, globMatch_any_all]
  all_goals
    simp [ruleMatches, expandPath, osExpandEnv, expandChars, getShellName, braceScan,
      isShellSpecialVar, isAlphaNumChar, strStartsWith, strDrop, userHomeDir, getEnvD, lookupEnv,
      filepathJoin, cleanPath, splitOnSep, cleanStep, globCompile, parseSeq, parseAlts,
      parseClassBody, parseClassItems, consNodeResult, globsMatch, globMatch, inClass,
      classItemMatches]

/-- C8: the code at the failing input of the claim: a rule whose expanded
pattern fails to compile (here `"["`, an unclosed class) does not get
skipped — the discarded compile error leaves a nil matcher whose `Match`
call panics, aborting the whole scan (exit status 2) even though a later
rule matches the directory. -/
theorem C8_malformed_pattern_panics :
    (∀ lp : String → String → Option String,
      runWrapper lp [] ["aws_w"] "/x" ⟨⟨"_w"⟩, [⟨"[", "/h1"⟩, ⟨"/x/**", "/h2"⟩]⟩
        = WrapperOutcome.panicked) ∧
    globCompile (expandPath [] "[") = none ∧
    ruleMatches [] "/x" "/x/" ⟨"/x/**", "/h2"⟩ ≠ none ∧
    exitCode WrapperOutcome.panicked = some 2 := by
  refine ⟨?_, ?_, ?_, ?_⟩
  · intro lp
    rw [runWrapper_eq]
    rw [show findHome [] (expandPath [] "/x") (expandPath [] "/x" ++ "/")
        (Config.rules ⟨⟨"_w"⟩, [⟨"[", "/h1"⟩, ⟨"/x/**", "/h2"⟩]⟩) = none by
      simp [findHome, expandPath, osExpandEnv, expandChars, getShellName, braceScan,
        isShellSpecialVar, isAlphaNumChar, strStartsWith, strDrop, userHomeDir, getEnvD,
        lookupEnv, filepathJoin, cleanPath, splitOnSep, cleanStep, globCompile, parseSeq,
        parseAlts, parseClassBody, parseClassItems, consNodeResult, globsMatch, globMatch,
        inClass, classItemMatches]]
  · simp [expandPath, osExpandEnv, expandChars, getShellName, braceScan, isShellSpecialVar,
      isAlphaNumChar, strStartsWith, strDrop, userHomeDir, getEnvD, lookupEnv, filepathJoin,
      cleanPath, splitOnSep, cleanStep, globCompile, parseSeq, parseAlts, parseClassBody,
      parseClassItems, consNodeResult]
  · simp [ruleMatches, expandPath, osExpandEnv, expandChars, getShellName, braceScan,
      isShellSpecialVar, isAlphaNumChar, strStartsWith, strDrop, userHomeDir, getEnvD, lookupEnv,
      filepathJoin, cleanPath, splitOnSep, cleanStep, globCompile, parseSeq, parseAlts,
      parseClassBody, parseClassItems, consNodeResult, globsMatch, globMatch, inClass,
      classItemMatches]
  · rfl

/-- C10: rule matching is deterministic: any two runs of the matching
loop (as captured step by step by `FindHomeRel`) on the same environment,
candidate directory forms and rule list produce the same result, and the
matcher function realises the relation — there is no hidden or mutable
state beyond the inputs. -/
theorem C10_matching_deterministic (e : Env) (c1 c2 : String) (rs : List Rule) :
    (∀ o1 o2 : Option (Option String),
      FindHomeRel e c1 c2 rs o1 → FindHomeRel e c1 c2 rs o2 → o1 = o2) ∧
    FindHomeRel e c1 c2 rs (findHome e c1 c2 rs) := by
  constructor
  · intro o1 o2 h1 h2
    induction h1 generalizing o2 with
    | nil =>
      cases h2
      rfl
    | panicRule r rs hc =>
      cases h2 with
      | panicRule _ _ _ => rfl
      | matchRule _ _ g' hg' hm' => rw [hc] at hg'; cases hg'
      | skipRule _ _ g' o' hg' hm' hrel' => rw [hc] at hg'; cases hg'
    | matchRule r rs g hg hm =>
      cases h2 with
      | panicRule _ _ hc => rw [hc] at hg; cases hg
      | matchRule _ _ g' hg' hm' => rfl
      | skipRule _ _ g' o' hg' hm' hrel' =>
        have hgg := hg.symm.trans hg'
        injection hgg with hgg
        subst hgg
        rw [hm] at hm'
        cases hm'
    | skipRule r rs g o hg hm hrel ih =>
      cases h2 with
      | panicRule _ _ hc => rw [hc] at hg; cases hg
      | matchRule _ _ g' hg' hm' =>
        have hgg := hg.symm.trans hg'
        injection hgg with hgg
        subst hgg
        rw [hm] at hm'
        cases hm'
      | skipRule _ _ g' o' hg' hm' hrel' => exact ih _ hrel'
  · induction rs with
    | nil => exact FindHomeRel.nil
    | cons r rs ih =>
      cases hg : globCompile (expandPath e r.pattern) with
      | none =>
        have heq : findHome e c1 c2 (r :: rs) = none := by
          conv_lhs => rw [findHome]
          rw [hg]
        rw [heq]
        exact FindHomeRel.panicRule r rs hg
      | some g =>
        cases hm : globsMatch g c1 || globsMatch g c2 with
        | true =>
          have heq : findHome e c1 c2 (r :: rs) = some (some (expandPath e r.home)) := by
            conv_lhs => rw [findHome]
            rw [hg]
            simp [hm]
          rw [heq]
          exact FindHomeRel.matchRule r rs g hg hm
        | false =>
          have heq : findHome e c1 c2 (r :: rs) = findHome e c1 c2 rs := by
            conv_lhs => rw [findHome]
            rw [hg]
            simp [hm]
          rw [heq]
          exact FindHomeRel.skipRule r rs g _ hg hm ih

/-- Witness for C10 at a concrete input: the determinism half applied to
the realisation run and to an explicitly constructed run pins the
matcher's concrete value. -/
theorem C10_witness :
    findHome [] "/a" "/a/" [⟨"/a/**", "/h"⟩] = some (some "/h") := by
  obtain ⟨det, real⟩ := C10_matching_deterministic [] "/a" "/a/" [⟨"/a/**", "/h"⟩]
  refine det _ _ real ?_
  have hexp : expandPath [] ("/h" : String) = "/h" := by
    simp [expandPath, osExpandEnv, expandChars, getShellName, strStartsWith, strDrop,
      userHomeDir, getEnvD, lookupEnv, isShellSpecialVar, isAlphaNumChar]
  have hg : globCompile (expandPath [] ("/a/**" : String))
      = some [[GlobNode.lit '/', GlobNode.lit 'a', GlobNode.lit '/', GlobNode.super]] := by
    simp [expandPath, osExpandEnv, expandChars, getShellName, strStartsWith, strDrop,
      userHomeDir, getEnvD, lookupEnv, isShellSpecialVar, isAlphaNumChar, globCompile,
      parseSeq, parseAlts, parseClassBody, parseClassItems, consNodeResult]
  have hm : (globsMatch [[GlobNode.lit '/', GlobNode.lit 'a', GlobNode.lit '/', GlobNode.super]]
        "/a"
      || globsMatch [[GlobNode.lit '/', GlobNode.lit 'a', GlobNode.lit '/', GlobNode.super]]
        "/a/") = true := by
    simp [globsMatch, globMatch]
  have h2 := FindHomeRel.matchRule (⟨"/a/**", "/h"⟩ : Rule) ([] : List Rule) _ hg hm
  rw [hexp] at h2
  exact h2

/-- C9: on failure the wrapper exits non-zero after a diagnostic: with an
empty rule list (and in general whenever no rule matches) the outcome is
the no-match failure with exit status 1 whose diagnostic suggests the
exact `add-rule` invocation built from the current directory; when a rule
matched but the lookup cannot resolve the target, the outcome is the
not-found failure naming the searched (suffix-stripped) command, again
with exit status 1; no retry exists in either case. -/
theorem C9_failure_exits (lp : String → String → Option String) (e : Env) (args : List String)
    (cwd : String) (cfg : Config) (h : String) :
    (cfg.rules = [] → runWrapper lp e args cwd cfg = WrapperOutcome.noMatch cwd ∧
      exitCode (runWrapper lp e args cwd cfg) = some 1 ∧
      ("[INFO] To add a Rule, run: multiprof add-rule --pattern \"" ++ cwd ++
          "/**\" --home \"/path/to/home\"")
        ∈ outcomeDiagnostics (runWrapper lp e args cwd cfg)) ∧
    (findHome e (expandPath e cwd) (expandPath e cwd ++ "/") cfg.rules = some none →
      runWrapper lp e args cwd cfg = WrapperOutcome.noMatch cwd ∧
      exitCode (runWrapper lp e args cwd cfg) = some 1 ∧
      ("[INFO] To add a Rule, run: multiprof add-rule --pattern \"" ++ cwd ++
          "/**\" --home \"/path/to/home\"")
        ∈ outcomeDiagnostics (runWrapper lp e args cwd cfg)) ∧
    (findHome e (expandPath e cwd) (expandPath e cwd ++ "/") cfg.rules = some (some h) →
      ∃ env' : Env,
        runWrapper (fun _ _ => none) e args cwd cfg
          = WrapperOutcome.notFound
              (trimSuffix (baseName (args.headD "")) cfg.settings.suffix) env' ∧
        exitCode (runWrapper (fun _ _ => none) e args cwd cfg) = some 1) := by
  have part2 : findHome e (expandPath e cwd) (expandPath e cwd ++ "/") cfg.rules = some none →
      runWrapper lp e args cwd cfg = WrapperOutcome.noMatch cwd ∧
      exitCode (runWrapper lp e args cwd cfg) = some 1 ∧
      ("[INFO] To add a Rule, run: multiprof add-rule --pattern \"" ++ cwd ++
          "/**\" --home \"/path/to/home\"")
        ∈ outcomeDiagnostics (runWrapper lp e args cwd cfg) := by
    intro hf
    have hrw : runWrapper lp e args cwd cfg = WrapperOutcome.noMatch cwd := by
      rw [runWrapper_eq, hf]
    refine ⟨hrw, ?_, ?_⟩
    · rw [hrw]
      rfl
    · rw [hrw]
      simp [outcomeDiagnostics, noMatchDiagnostic]
  refine ⟨?_, part2, ?_⟩
  · intro hrules
    exact part2 (by rw [hrules]; rfl)
  · intro hf
    have hrw : runWrapper (fun _ _ => none) e args cwd cfg
        = execPhase (fun _ _ => none) (setEnv e "HOME" h) args cfg.settings.suffix := by
      rw [runWrapper_eq, hf]
    rw [execPhase_eq] at hrw
    exact ⟨_, hrw, by rw [hrw]; rfl⟩

/-- Witness for C9 at concrete inputs: the empty rule list gives the
no-match failure, and an unresolvable target gives the not-found failure
naming the suffix-stripped command. -/
theorem C9_witness :
    runWrapper (fun _ c => some c) [] ([] : List String) "/d" ⟨⟨""⟩, []⟩
      = WrapperOutcome.noMatch "/d" ∧
    exitCode (runWrapper (fun _ _ => none) [("PATH", "/usr/bin")] ["aws_w"] "/w"
        ⟨⟨"_w"⟩, [⟨"/w/**", "/home/w"⟩]⟩) = some 1 := by
  constructor
  · exact ((C9_failure_exits (fun _ c => some c) [] [] "/d" ⟨⟨""⟩, []⟩ "").1 rfl).1
  · obtain ⟨env', heq, hexit⟩ := (C9_failure_exits (fun _ _ => none) [("PATH", "/usr/bin")]
      ["aws_w"] "/w" ⟨⟨"_w"⟩, [⟨"/w/**", "/home/w"⟩]⟩ "/home/w").2.2
      (by
        simp [findHome, expandPath, osExpandEnv, expandChars, getShellName, braceScan,
          isShellSpecialVar, isAlphaNumChar, strStartsWith, strDrop, userHomeDir, getEnvD,
          lookupEnv, filepathJoin, cleanPath, splitOnSep, cleanStep, globCompile, parseSeq,
          parseAlts, parseClassBody, parseClassItems, consNodeResult, globsMatch, globMatch,
          inClass, classItemMatches])
    exact hexit

/-- C4: when a rule has matched and the target resolved, the exec receives
the original arguments unchanged and the original environment with exactly
one override — `HOME` set to the matched rule's expanded home: `PATH` in
that environment equals the original `PATH` (the transient safe-PATH swap
is undone on the success path), every variable other than `HOME` reads as
before, and on the lookup-failure path the final environment likewise has
the original `PATH` restored. -/
theorem C4_exec_frame (lp : String → String → Option String) (e : Env) (args : List String)
    (cwd : String) (cfg : Config) (p h : String)
    (hp : lookupEnv e "PATH" = some p)
    (hFind : findHome e (expandPath e cwd) (expandPath e cwd ++ "/") cfg.rules = some (some h)) :
    (∀ tp argv envp, runWrapper lp e args cwd cfg = WrapperOutcome.exec tp argv envp →
      argv = args ∧ envp = setEnv e "HOME" h ∧
      lookupEnv envp "PATH" = some p ∧ lookupEnv envp "HOME" = some h ∧
      ∀ k, k ≠ "HOME" → lookupEnv envp k = lookupEnv e k) ∧
    (∀ cmd env', runWrapper lp e args cwd cfg = WrapperOutcome.notFound cmd env' →
      env' = setEnv e "HOME" h ∧ lookupEnv env' "PATH" = some p) := by
  have hpe1 : lookupEnv (setEnv e "HOME" h) "PATH" = some p := by
    rw [lookupEnv_setEnv_ne e "HOME" h "PATH" (by decide)]
    exact hp
  have e3eq : setEnv (setEnv (setEnv e "HOME" h) "PATH"
      (safePathOf (getEnvD (setEnv e "HOME" h) "PATH") (getWrapperDir (setEnv e "HOME" h))))
      "PATH" (getEnvD (setEnv e "HOME" h) "PATH") = setEnv e "HOME" h := by
    rw [setEnv_setEnv_self]
    apply setEnv_of_lookup
    unfold getEnvD
    rw [hpe1]
    rfl
  have hrun : runWrapper lp e args cwd cfg
      = execPhase lp (setEnv e "HOME" h) args cfg.settings.suffix := by
    rw [runWrapper_eq, hFind]
  constructor
  · intro tp argv envp hx
    rw [hrun] at hx
    cases hlp : lp (safePathOf (getEnvD (setEnv e "HOME" h) "PATH")
        (getWrapperDir (setEnv e "HOME" h)))
        (trimSuffix (baseName (args.headD "")) cfg.settings.suffix) with
    | none =>
      rw [execPhase_none lp (setEnv e "HOME" h) args cfg.settings.suffix hlp] at hx
      exact WrapperOutcome.noConfusion hx
    | some tp0 =>
      rw [execPhase_some lp (setEnv e "HOME" h) args cfg.settings.suffix tp0 hlp] at hx
      injection hx with h1 h2 h3
      have henv : envp = setEnv e "HOME" h := h3.symm.trans e3eq
      refine ⟨h2.symm, henv, ?_, ?_, ?_⟩
      · rw [henv]
        exact hpe1
      · rw [henv]
        exact lookupEnv_setEnv_self e "HOME" h
      · intro k hk
        rw [henv]
        exact lookupEnv_setEnv_ne e "HOME" h k hk
  · intro cmd env' hx
    rw [hrun] at hx
    cases hlp : lp (safePathOf (getEnvD (setEnv e "HOME" h) "PATH")
        (getWrapperDir (setEnv e "HOME" h)))
        (trimSuffix (baseName (args.headD "")) cfg.settings.suffix) with
    | some tp0 =>
      rw [execPhase_some lp (setEnv e "HOME" h) args cfg.settings.suffix tp0 hlp] at hx
      exact WrapperOutcome.noConfusion hx
    | none =>
      rw [execPhase_none lp (setEnv e "HOME" h) args cfg.settings.suffix hlp] at hx
      injection hx with h1 h2
      have henv : env' = setEnv e "HOME" h := h2.symm.trans e3eq
      refine ⟨henv, ?_⟩
      rw [henv]
      exact hpe1

/-- Witness for C4 at a concrete input: a matching rule, a resolving
oracle; the exec environment is the original with only `HOME` overridden
and `PATH` equal to the original value. -/
theorem C4_witness :
    (["aws_w", "s3"] : List String) = ["aws_w", "s3"] ∧
    ([("HOME", "/home/work"), ("PATH", "/usr/bin")] : Env)
      = setEnv [("HOME", "/orig"), ("PATH", "/usr/bin")] "HOME" "/home/work" ∧
    lookupEnv [("HOME", "/home/work"), ("PATH", "/usr/bin")] "PATH" = some "/usr/bin" ∧
    lookupEnv [("HOME", "/home/work"), ("PATH", "/usr/bin")] "HOME" = some "/home/work" ∧
    lookupEnv [("HOME", "/home/work"), ("PATH", "/usr/bin")] "PATH"
      = lookupEnv [("HOME", "/orig"), ("PATH", "/usr/bin")] "PATH" := by
  have h := (C4_exec_frame (fun _ c => some ("/usr/bin/" ++ c))
    [("HOME", "/orig"), ("PATH", "/usr/bin")] ["aws_w", "s3"] "/w"
    ⟨⟨"_w"⟩, [⟨"/w/**", "/home/work"⟩]⟩ "/usr/bin" "/home/work"
    (by rfl)
    (by
      simp [findHome, expandPath, osExpandEnv, expandChars, getShellName, braceScan,
        isShellSpecialVar, isAlphaNumChar, strStartsWith, strDrop, userHomeDir, getEnvD,
        lookupEnv, filepathJoin, cleanPath, splitOnSep, cleanStep, globCompile, parseSeq,
        parseAlts, parseClassBody, parseClassItems, consNodeResult, globsMatch, globMatch,
        inClass, classItemMatches])).1
    "/usr/bin/aws" ["aws_w", "s3"] [("HOME", "/home/work"), ("PATH", "/usr/bin")]
    (by
      simp [runWrapper, findHome, execPhase, expandPath, osExpandEnv, expandChars, getShellName,
        braceScan, isShellSpecialVar, isAlphaNumChar, strStartsWith, strDrop, userHomeDir,
        getEnvD, lookupEnv, filepathJoin, cleanPath, splitOnSep, cleanStep, globCompile,
        parseSeq, parseAlts, parseClassBody, parseClassItems, consNodeResult, globsMatch,
        globMatch, inClass, classItemMatches, safePathOf, replaceAll, replaceAllChars,
        trimSuffix, strEndsWith, baseName, setEnv, getWrapperDir, wrapperDirName, strMk_data]
      all_goals decide)
  exact ⟨h.1, h.2.1, h.2.2.1, h.2.2.2.1, h.2.2.2.2 "PATH" (by decide)⟩

/-- C5: `HOME` is overwritten with the matched rule's expanded home before
the wrapper directory is computed, and the wrapper directory's leading
tilde is resolved through the user-home lookup that reads `HOME` — so it
resolves under the matched rule's home `h` (second conjunct), and the
safe `PATH` handed to the target lookup strips the wrapper-directory entry
under `h`, not under the invoking user's original home: any two lookup
oracles that agree on that one `h`-derived safe-PATH point make the whole
run agree (first conjunct). -/
theorem C5_wrapper_dir_under_matched_home (e : Env) (args : List String) (cwd : String)
    (cfg : Config) (h : String) (f g : String → String → Option String)
    (hFind : findHome e (expandPath e cwd) (expandPath e cwd ++ "/") cfg.rules = some (some h))
    (hagree :
      f (safePathOf (getEnvD (setEnv e "HOME" h) "PATH") (getWrapperDir (setEnv e "HOME" h)))
        (trimSuffix (baseName (args.headD "")) cfg.settings.suffix)
      = g (safePathOf (getEnvD (setEnv e "HOME" h) "PATH") (getWrapperDir (setEnv e "HOME" h)))
        (trimSuffix (baseName (args.headD "")) cfg.settings.suffix))
    (hne : h ≠ "")
    (hjoin : filepathJoin h (strDrop (filepathJoin "~/" wrapperDirName) 1)
      = h ++ "/" ++ wrapperDirName)
    (hnd : '$' ∉ (h ++ "/" ++ wrapperDirName).data) :
    runWrapper f e args cwd cfg = runWrapper g e args cwd cfg ∧
    getWrapperDir (setEnv e "HOME" h) = h ++ "/" ++ wrapperDirName := by
  have hwd : getWrapperDir (setEnv e "HOME" h) = h ++ "/" ++ wrapperDirName := by
    simp only [getWrapperDir, expandPath, userHomeDir_setEnv_home e h hne,
      show strStartsWith (filepathJoin "~/" wrapperDirName) "~" = true by decide, if_true,
      hjoin]
    exact osExpandEnv_no_dollar _ _ hnd
  have h1 : runWrapper f e args cwd cfg
      = execPhase f (setEnv e "HOME" h) args cfg.settings.suffix := by
    rw [runWrapper_eq, hFind]
  have h2 : runWrapper g e args cwd cfg
      = execPhase g (setEnv e "HOME" h) args cfg.settings.suffix := by
    rw [runWrapper_eq, hFind]
  refine ⟨?_, hwd⟩
  rw [h1, h2, execPhase_eq, execPhase_eq, hagree]

/-- Witness for C5 at a concrete input: the rule home is `/home/work`, the
original home `/orig`; the wrapper directory resolves under `/home/work`,
and the safe `PATH` strips exactly that entry, so the two oracles, which
agree only on `/usr/bin`, give identical runs. -/
theorem C5_witness :
    runWrapper (fun p _ => some p) [("HOME", "/orig"),
        ("PATH", "/home/work/.local/bin/multiprof:/usr/bin")] ["aws_w"] "/w"
        ⟨⟨"_w"⟩, [⟨"/w/**", "/home/work"⟩]⟩
      = runWrapper (fun p _ => if p = "/usr/bin" then some p else none)
          [("HOME", "/orig"), ("PATH", "/home/work/.local/bin/multiprof:/usr/bin")]
          ["aws_w"] "/w" ⟨⟨"_w"⟩, [⟨"/w/**", "/home/work"⟩]⟩ ∧
    getWrapperDir (setEnv [("HOME", "/orig"),
        ("PATH", "/home/work/.local/bin/multiprof:/usr/bin")] "HOME" "/home/work")
      = "/home/work" ++ "/" ++ wrapperDirName := by
  have hwd : getWrapperDir (setEnv [("HOME", "/orig"),
      ("PATH", "/home/work/.local/bin/multiprof:/usr/bin")] "HOME" "/home/work")
      = "/home/work/.local/bin/multiprof" := by
    simp only [getWrapperDir, expandPath,
      show strStartsWith (filepathJoin "~/" wrapperDirName) "~" = true by decide, if_true,
      show userHomeDir (setEnv [("HOME", "/orig"),
        ("PATH", "/home/work/.local/bin/multiprof:/usr/bin")] "HOME" "/home/work")
        = some "/home/work" by decide,
      show filepathJoin "/home/work" (strDrop (filepathJoin "~/" wrapperDirName) 1)
        = "/home/work/.local/bin/multiprof" by decide]
    exact osExpandEnv_no_dollar _ _ (by decide)
  have hx : safePathOf
      (getEnvD (setEnv [("HOME", "/orig"),
        ("PATH", "/home/work/.local/bin/multiprof:/usr/bin")] "HOME" "/home/work") "PATH")
      (getWrapperDir (setEnv [("HOME", "/orig"),
        ("PATH", "/home/work/.local/bin/multiprof:/usr/bin")] "HOME" "/home/work"))
      = "/usr/bin" := by
    rw [hwd,
      show getEnvD (setEnv [("HOME", "/orig"),
        ("PATH", "/home/work/.local/bin/multiprof:/usr/bin")] "HOME" "/home/work") "PATH"
        = "/home/work/.local/bin/multiprof:/usr/bin" by decide]
    simp [safePathOf, replaceAll, replaceAllChars]
  exact C5_wrapper_dir_under_matched_home
    [("HOME", "/orig"), ("PATH", "/home/work/.local/bin/multiprof:/usr/bin")]
    ["aws_w"] "/w" ⟨⟨"_w"⟩, [⟨"/w/**", "/home/work"⟩]⟩ "/home/work"
    (fun p _ => some p) (fun p _ => if p = "/usr/bin" then some p else none)
    (by
      simp [findHome, expandPath, osExpandEnv, expandChars, getShellName, braceScan,
        isShellSpecialVar, isAlphaNumChar, strStartsWith, strDrop, userHomeDir, getEnvD,
        lookupEnv, filepathJoin, cleanPath, splitOnSep, cleanStep, globCompile, parseSeq,
        parseAlts, parseClassBody, parseClassItems, consNodeResult, globsMatch, globMatch,
        inClass, classItemMatches])
    (by rw [hx]; simp)
    (by decide)
    (by decide)
    (by decide)

/-- C7 (counterexample): the claim says everything after the leading tilde
is preserved verbatim with no `..` collapsing, but the tilde branch goes
through `filepath.Join`, which lexically cleans the joined path: with home
`/h`, the input `~/a/../b` expands to `/h/b`, not `/h/a/../b`. -/
theorem C7_counterexample :
    expandPath [("HOME", "/h")] "~/a/../b" = "/h/b" ∧
    ("/h/b" : String) ≠ "/h/a/../b" := by
  constructor
  · simp [expandPath, osExpandEnv, expandChars, getShellName, braceScan, isShellSpecialVar,
      isAlphaNumChar, strStartsWith, strDrop, userHomeDir, getEnvD, lookupEnv, filepathJoin,
      cleanPath, splitOnSep, cleanStep, List.intercalate, List.intersperse]
  · decide

/-- C7 (amended): a string that does not start with a tilde only undergoes
environment substitution; a string starting with a tilde (when the
user-home lookup succeeds) is `filepath.Join`ed onto the home directory —
which inserts a separator and lexically cleans the joined path (collapsing
`.`/`..` and duplicate separators; no symlink resolution) — before the
same substitution; `$VAR` and `${VAR}` read the environment, and an unset
variable expands to the empty string; with home `/h`, `~/a/../b` expands
to `/h/b`. -/
theorem C7_expansion (e : Env) (s h : String) :
    (strStartsWith s "~" = false → expandPath e s = osExpandEnv e s) ∧
    (strStartsWith s "~" = true → userHomeDir e = some h →
      expandPath e s = osExpandEnv e (filepathJoin h (strDrop s 1))) ∧
    osExpandEnv e "$FOO" = getEnvD e "FOO" ∧
    osExpandEnv e "${FOO}" = getEnvD e "FOO" ∧
    (lookupEnv e "FOO" = none → osExpandEnv e "$FOO" = "") ∧
    expandPath [("HOME", "/h")] "~/a/../b" = "/h/b" := by
  have hfoo : osExpandEnv e "$FOO" = getEnvD e "FOO" := by
    simp [osExpandEnv, expandChars, getShellName, isShellSpecialVar, isAlphaNumChar,
      strMk_data]
  have hfoo2 : osExpandEnv e "${FOO}" = getEnvD e "FOO" := by
    simp [osExpandEnv, expandChars, getShellName, braceScan, isShellSpecialVar,
      isAlphaNumChar, strMk_data]
  refine ⟨?_, ?_, hfoo, hfoo2, ?_, ?_⟩
  · intro hns
    simp [expandPath, hns]
  · intro hts hh
    simp [expandPath, hts, hh]
  · intro hnone
    rw [hfoo]
    unfold getEnvD
    rw [hnone]
    rfl
  · simp [expandPath, osExpandEnv, expandChars, getShellName, braceScan, isShellSpecialVar,
      isAlphaNumChar, strStartsWith, strDrop, userHomeDir, getEnvD, lookupEnv, filepathJoin,
      cleanPath, splitOnSep, cleanStep, List.intercalate, List.intersperse]

/-- Witness for C7 at concrete inputs: a tilde-free string passes through
substitution only, and an unset variable reads as empty. -/
theorem C7_witness :
    strStartsWith "/no/tilde" "~" = false ∧
    expandPath [] "/no/tilde" = osExpandEnv [] "/no/tilde" ∧
    lookupEnv ([] : Env) "FOO" = none ∧
    osExpandEnv [] "$FOO" = "" :=
  ⟨by decide, (C7_expansion [] "/no/tilde" "").1 (by decide), rfl,
    (C7_expansion [] "" "").2.2.2.2.1 rfl⟩

end Multiprof
